import Mathlib

/-!
Verification of the happy-go-lucky persistence core: a shallow embedding of
the state-machine value types (UserStatus, UserRole), the User entity's
serialization, and the Term/Course manager operations, with theorems checking
the specification's claims against the code.
-/

namespace HGL

/-- Error taxonomy of the core (spec section 7 and the exception strings in the
source). Transitions and constructors throw `Error` with a message; managers
throw `IllegalArgumentException` / `MethodFailedException`. -/
inductive VError where
  | invalidInitialStatus (tag : String)
  | invalidInitialRole (tag : String)
  | invalidTransition (src tgt : String)
  | constraintViolation (msg : String)
  | illegalArgument (msg : String)
  | methodFailed (msg : String)
  deriving DecidableEq, Repr

/-- `UserStatusEnum` from src/unnamed/part_002 lines 1-6. -/
inductive UserStatusEnum where
  | confirmed
  | unconfirmed
  | suspended
  | removed
  deriving DecidableEq, Repr, Fintype

/-- The string value of each `UserStatusEnum` member (its key equals its value
in the TypeScript string enum). -/
def UserStatusEnum.toTag : UserStatusEnum → String
  | .confirmed => "confirmed"
  | .unconfirmed => "unconfirmed"
  | .suspended => "suspended"
  | .removed => "removed"

/-- Parse a raw string into a `UserStatusEnum` member; `some` exactly on the
four declared tags.  Models the runtime membership test
`initialStatus in UserStatusEnum` (keys coincide with values). -/
def statusOfTag : String → Option UserStatusEnum
  | "confirmed" => some .confirmed
  | "unconfirmed" => some .unconfirmed
  | "suspended" => some .suspended
  | "removed" => some .removed
  | _ => none

/-- `UserRoleEnum` from src/unnamed/part_003 lines 1-4. -/
inductive UserRoleEnum where
  | USER
  | ADMIN
  deriving DecidableEq, Repr, Fintype

/-- The string value of each `UserRoleEnum` member. -/
def UserRoleEnum.toTag : UserRoleEnum → String
  | .USER => "USER"
  | .ADMIN => "ADMIN"

/-- Parse a raw string into a `UserRoleEnum` member. -/
def roleOfTag : String → Option UserRoleEnum
  | "USER" => some .USER
  | "ADMIN" => some .ADMIN
  | _ => none

/-- The `UserStatus` value object: an immutable wrapper of one enum member
(src/unnamed/part_002 lines 8-9). -/
structure UserStatus where
  status : UserStatusEnum
  deriving DecidableEq, Repr

/-- `UserStatus.validTransitions` (src/unnamed/part_002 lines 12-17). -/
def UserStatus.validTransitions : UserStatusEnum → List UserStatusEnum
  | .confirmed => [.suspended]
  | .unconfirmed => [.confirmed, .suspended, .removed]
  | .suspended => [.confirmed, .removed]
  | .removed => []

/-- The `UserStatus` constructor (src/unnamed/part_002 lines 19-24): rejects a
raw value outside the declared enumeration, otherwise stores it. -/
def UserStatus.construct (initialStatus : String) : Except VError UserStatus :=
  match statusOfTag initialStatus with
  | some e => .ok ⟨e⟩
  | none => .error (.invalidInitialStatus initialStatus)

/-- `UserStatus.canTransitionTo` (src/unnamed/part_002 lines 34-37). -/
def UserStatus.canTransitionTo (s : UserStatus) (newStatus : UserStatusEnum) : Bool :=
  decide (newStatus ∈ UserStatus.validTransitions s.status)

/-- Result of a `transitionTo` call, keeping the distinction the code makes
between `return this` (the identical instance) and `new ...(target)` (a fresh
instance): needed to state the reference-identity claims. -/
inductive TransitionOutcome (α : Type) where
  | sameInstance : TransitionOutcome α
  | newInstance : α → TransitionOutcome α
  deriving DecidableEq, Repr

/-- `UserStatus.transitionTo` (src/unnamed/part_002 lines 39-50): same-state
short-circuit returns `this`, an allowed transition returns a new instance,
anything else throws. -/
def UserStatus.transitionTo (s : UserStatus) (newStatus : UserStatusEnum) :
    Except VError (TransitionOutcome UserStatus) :=
  if s.status = newStatus then .ok .sameInstance
  else if s.canTransitionTo newStatus then .ok (.newInstance ⟨newStatus⟩)
  else .error (.invalidTransition s.status.toTag newStatus.toTag)

/-- The value a `transitionTo` call site receives: the same instance resolves
to the receiver itself. -/
def TransitionOutcome.resolve (s : UserStatus) :
    TransitionOutcome UserStatus → UserStatus
  | .sameInstance => s
  | .newInstance v => v

/-- `transitionTo` as called on a raw string target cast with
`as UserStatusEnum` (the call sites in src/unnamed/part_001 lines 42 and 135):
a tag outside the enumeration is never current-state-equal and never contained
in the allowed list, so it throws `Invalid transition`. -/
def UserStatus.transitionToRaw (s : UserStatus) (tag : String) :
    Except VError UserStatus :=
  match statusOfTag tag with
  | some t =>
    match s.transitionTo t with
    | .ok o => .ok (o.resolve s)
    | .error e => .error e
  | none => .error (.invalidTransition s.status.toTag tag)

/-- The `UserRole` value object (src/unnamed/part_003 lines 6-7), as holding a
well-formed member; the constructor's runtime check is embedded separately in
`UserRole.construct` because, as written, it stores raw non-members. -/
structure UserRole where
  role : UserRoleEnum
  deriving DecidableEq, Repr

/-- `UserRole.validTransitions` (src/unnamed/part_003 lines 10-13). -/
def UserRole.validTransitions : UserRoleEnum → List UserRoleEnum
  | .USER => [.ADMIN]
  | .ADMIN => [.USER]

/-- The `UserRole` constructor guard exactly as written
(src/unnamed/part_003 lines 15-20): `if (initialRole in UserRoleEnaum) throw`
— reading the misspelled `UserRoleEnaum` as `UserRoleEnum`, the membership
check is inverted relative to `UserStatus`, so a declared member throws
`Invalid initial role` and an undeclared string is stored. Returns the raw
string the instance would hold. -/
def UserRole.construct (initialRole : String) : Except VError String :=
  match roleOfTag initialRole with
  | some _ => .error (.invalidInitialRole initialRole)
  | none => .ok initialRole

/-- `UserRole.canTransitionTo` (src/unnamed/part_003 lines 30-33). -/
def UserRole.canTransitionTo (r : UserRole) (newRole : UserRoleEnum) : Bool :=
  decide (newRole ∈ UserRole.validTransitions r.role)

/-- `UserRole.transitionTo` (src/unnamed/part_003 lines 35-46). -/
def UserRole.transitionTo (r : UserRole) (newRole : UserRoleEnum) :
    Except VError (TransitionOutcome UserRole) :=
  if r.role = newRole then .ok .sameInstance
  else if r.canTransitionTo newRole then .ok (.newInstance ⟨newRole⟩)
  else .error (.invalidTransition r.role.toTag newRole.toTag)

/-- Modelled from the spec: the `Email` value type (src/Models/ValueTypes/Email
is not in the sources); spec section 4.2 only requires wrapping a raw string
and emitting back "its string form". -/
structure Email where
  value : String
  deriving DecidableEq, Repr

/-- The `User` entity's fields (src/unnamed/part_001 lines 9-19).  `role` is a
plain string in the source (`@todo: remove and set UserRole`) and is assigned
from a nullable column read in `readFrom`, so it is `Option String` here with
the declared default `"USER"`. -/
structure User where
  id : Int
  name : Option String := none
  githubUsername : Option String := none
  email : Option Email := none
  status : UserStatus := ⟨.unconfirmed⟩
  role : Option String := some "USER"
  password : Option String := none
  resetPasswordToken : Option String := none
  resetPasswordExpire : Option Int := none
  confirmEmailToken : Option String := none
  confirmEmailExpire : Option Int := none
  deriving DecidableEq, Repr

/-- The `User` constructor (src/unnamed/part_001 lines 27-30): takes an id,
all other fields at their declared defaults. -/
def User.construct (id : Int) : User := { id := id }

/-- A row of the `users` table as seen through the Reader/Writer field
accessors (`readString` and `readNumber` return nullable values). -/
structure UserRow where
  id : Int
  name : Option String
  githubUsername : Option String
  email : Option String
  status : Option String
  userRole : Option String
  password : Option String
  resetPasswordToken : Option String
  resetPasswordExpire : Option Int
  confirmEmailToken : Option String
  confirmEmailExpire : Option Int
  deriving DecidableEq, Repr

/-- `User.readFrom` (src/unnamed/part_001 lines 32-49): populate each field
from the row; the email string is wrapped into an `Email` when non-null; the
status is re-derived via `this.status.transitionTo(...)` on the raw column
value (a null status passes neither the same-state check nor the allowed
list, so it throws like any non-member tag). -/
def User.readFrom (u : User) (r : UserRow) : Except VError User := do
  let st ← match r.status with
    | some tag => u.status.transitionToRaw tag
    | none => Except.error (.invalidTransition u.status.status.toTag "null")
  Except.ok
    { id := r.id
      name := r.name
      githubUsername := r.githubUsername
      email := match r.email with
        | some s => some ⟨s⟩
        | none => none
      status := st
      role := r.userRole
      password := r.password
      resetPasswordToken := r.resetPasswordToken
      resetPasswordExpire := r.resetPasswordExpire
      confirmEmailToken := r.confirmEmailToken
      confirmEmailExpire := r.confirmEmailExpire }

/-- `User.writeTo` (src/unnamed/part_001 lines 51-67): emit each field's
primitive projection; a null email emits null, otherwise its string form; the
status emits its string tag. -/
def User.writeTo (u : User) : UserRow :=
  { id := u.id
    name := u.name
    githubUsername := u.githubUsername
    email := match u.email with
      | some e => some e.value
      | none => none
    status := some u.status.status.toTag
    userRole := u.role
    password := u.password
    resetPasswordToken := u.resetPasswordToken
    resetPasswordExpire := u.resetPasswordExpire
    confirmEmailToken := u.confirmEmailToken
    confirmEmailExpire := u.confirmEmailExpire }

/-- `User.setStatus` (src/unnamed/part_001 lines 134-136): every status
mutation goes through `UserStatus.transitionTo` on the raw string. -/
def User.setStatus (u : User) (status : String) : Except VError User :=
  match u.status.transitionToRaw status with
  | .ok st => .ok { u with status := st }
  | .error e => .error e

/-- `User.setRole` (src/unnamed/part_001 lines 138-140): a direct assignment
of the raw string, with no state-machine check. -/
def User.setRole (u : User) (role : String) : User :=
  { u with role := some role }

/-- A row of `terms` (schema in spec section 6). -/
structure TermRow where
  id : Int
  termName : String
  displayName : String
  deriving DecidableEq, Repr

/-- A row of `courses` (schema in spec section 6). -/
structure CourseRow where
  id : Int
  courseName : String
  termId : Int
  deriving DecidableEq, Repr

/-- A row of `projects` (schema in spec section 6). -/
structure ProjectRow where
  id : Int
  projectName : String
  courseId : Int
  deriving DecidableEq, Repr

/-- A row of `schedules` (DDL in the `databaseInitializer` embedded in
src/README.md; also spec section 6); dates are integers (dates-as-integers
per spec section 3). -/
structure ScheduleRow where
  id : Int
  startDate : Int
  endDate : Int
  deriving DecidableEq, Repr

/-- A row of `submissions` (DDL in the `databaseInitializer` embedded in
src/README.md, with `UNIQUE (scheduleId, submissionDate)`; also spec
section 6).  The surrogate `id` column is omitted: no operation under study
reads it, every query filters on `scheduleId` / `submissionDate` only. -/
structure SubmissionRow where
  scheduleId : Int
  submissionDate : Int
  deriving DecidableEq, Repr

/-- The relational store the managers operate on. -/
structure DB where
  terms : List TermRow
  courses : List CourseRow
  projects : List ProjectRow
  schedules : List ScheduleRow
  submissions : List SubmissionRow
  deriving DecidableEq, Repr

/-- `TermManager.deleteTerm` (src/unnamed/part_000 lines 167-198): absent term
returns false; a term with courses throws before any DELETE runs; otherwise
the term row is deleted and true returned.  The pair's second component is the
post-state (unchanged on the throw path, which precedes the DELETE). -/
def TermManager.deleteTerm (db : DB) (termId : Int) : Except VError Bool × DB :=
  if ¬ db.terms.any (fun t => t.id == termId) then (.ok false, db)
  else if db.courses.any (fun c => c.termId == termId) then
    (.error (.illegalArgument
      "Cannot delete term with existing courses. Please delete all courses first."), db)
  else (.ok true, { db with terms := db.terms.filter (fun t => t.id != termId) })

/-- `CourseManager.deleteCourse`
(src/server/src/Managers/CourseManager.ts lines 248-285): absent course
returns false; a course with projects throws before any DELETE runs; otherwise
it deletes submissions with `scheduleId = courseId`, the schedules row with
`id = courseId`, and the courses row, then returns true. -/
def CourseManager.deleteCourse (db : DB) (courseId : Int) : Except VError Bool × DB :=
  if ¬ db.courses.any (fun c => c.id == courseId) then (.ok false, db)
  else if db.projects.any (fun p => p.courseId == courseId) then
    (.error (.illegalArgument
      "Cannot delete course with existing projects. Please delete all projects first."), db)
  else
    (.ok true,
      { db with
        submissions := db.submissions.filter (fun s => s.scheduleId != courseId)
        schedules := db.schedules.filter (fun s => s.id != courseId)
        courses := db.courses.filter (fun c => c.id != courseId) })

/-- Lookup of a schedules row by primary key (models
`ObjectHandler.getCourseSchedule`, spec section 4.6 `getById`). -/
def findSchedule (rows : List ScheduleRow) (id : Int) : Option ScheduleRow :=
  rows.find? (fun r => r.id == id)

/-- The `CourseSchedule` entity with its owned `SubmissionDate` children
(src/Models/CourseSchedule is not in the sources; fields per spec sections 3
and 6: a schedule holds `startDate`, `endDate` and a collection of submission
dates; the children's surrogate ids are not observed by any claim). -/
structure CourseSchedule where
  id : Int
  startDate : Int
  endDate : Int
  submissionDates : List Int
  deriving DecidableEq, Repr

/-- True when the store already holds a submission row
`(scheduleId, submissionDate)` — the `UNIQUE (scheduleId, submissionDate)`
key of `submissions` declared in the embedded `databaseInitializer`. -/
def hasSubmission (db : DB) (scheduleId date : Int) : Bool :=
  db.submissions.any (fun s => s.scheduleId == scheduleId && s.submissionDate == date)

/-- A single submission-row insert at the storage boundary, from the
`databaseInitializer` embedded in src/README.md (the `submissions` DDL and
`submissions_insert_trigger`): the BEFORE INSERT trigger aborts when
`NEW.submissionDate < (SELECT startDate FROM schedules WHERE id =
NEW.scheduleId) OR NEW.submissionDate > (SELECT endDate ...)`; with no
schedules row the scalar subqueries yield NULL, the WHERE clause is not
satisfied and no abort fires — and since the initializer never enables
foreign-key enforcement, the insert is admitted.  The surviving row is then
checked against `UNIQUE (scheduleId, submissionDate)`.  Constraint failures
surface as `ConstraintViolation` (spec section 4.4). -/
def insertSubmission (db : DB) (scheduleId date : Int) : Except VError DB :=
  match findSchedule db.schedules scheduleId with
  | none =>
    if hasSubmission db scheduleId date then
      .error (.constraintViolation
        "UNIQUE constraint failed: submissions.scheduleId, submissions.submissionDate")
    else .ok { db with submissions := db.submissions ++ [⟨scheduleId, date⟩] }
  | some row =>
    if date < row.startDate ∨ row.endDate < date then
      .error (.constraintViolation
        "submissionDate must be between startDate and endDate")
    else if hasSubmission db scheduleId date then
      .error (.constraintViolation
        "UNIQUE constraint failed: submissions.scheduleId, submissions.submissionDate")
    else .ok { db with submissions := db.submissions ++ [⟨scheduleId, date⟩] }

/-- Insert the in-memory submission dates one after the other, stopping at the
first storage rejection. -/
def insertSubmissions (scheduleId : Int) : DB → List Int → Except VError DB
  | db, [] => .ok db
  | db, d :: rest =>
    match insertSubmission db scheduleId d with
    | .ok db2 => insertSubmissions scheduleId db2 rest
    | .error e => .error e

/-- Insert-vs-update for the schedules row, decided by whether a row with that
id already exists (spec section 4.4). -/
def upsertSchedule (rows : List ScheduleRow) (row : ScheduleRow) : List ScheduleRow :=
  if rows.any (fun r => r.id == row.id) then
    rows.map (fun r => if r.id == row.id then row else r)
  else rows ++ [row]

/-- Modelled from the spec: `DatabaseWriter.writeRoot` for a `CourseSchedule`
(src/Serializer/DatabaseWriter is not in the sources).  Per spec section 4.4:
insert-vs-update by row existence for the root's scalar fields, then
full-replace of the owned submission collection — existing children for this
parent are removed and the in-memory children inserted, each insert subject to
the storage constraints of `insertSubmission` (which embeds the real trigger
and unique-key code from the `databaseInitializer` in src/README.md). -/
def writeRoot (db : DB) (sch : CourseSchedule) : Except VError DB :=
  let db1 : DB :=
    { db with
      schedules := upsertSchedule db.schedules ⟨sch.id, sch.startDate, sch.endDate⟩
      submissions := db.submissions.filter (fun s => s.scheduleId != sch.id) }
  insertSubmissions sch.id db1 sch.submissionDates

/-- The tail of `CourseManager.saveSchedule`
(src/server/src/Managers/CourseManager.ts lines 320-341): delete the existing
submission rows for `courseId`, hand the schedule to `writeRoot`, and return
the schedule on success. -/
def CourseManager.saveScheduleWrite (db : DB) (courseId : Int)
    (sch : CourseSchedule) : Except VError (CourseSchedule × DB) :=
  match writeRoot
      { db with submissions := db.submissions.filter (fun s => s.scheduleId != courseId) }
      sch with
  | .ok db2 => .ok (sch, db2)
  | .error e => .error e

/-- `CourseManager.saveSchedule`
(src/server/src/Managers/CourseManager.ts lines 295-345): requires the course
to exist; fetches the schedule by `courseId` or creates one with
`setId(courseId)` (1:1 relationship, line 317); sets the dates and submission
dates and hands the schedule to the writer. -/
def CourseManager.saveSchedule (db : DB) (courseId startDate endDate : Int)
    (submissionDates : List Int) : Except VError (CourseSchedule × DB) :=
  if ¬ db.courses.any (fun c => c.id == courseId) then
    .error (.illegalArgument "CourseID not found.")
  else
    match findSchedule db.schedules courseId with
    | some row =>
      CourseManager.saveScheduleWrite db courseId
        { id := row.id, startDate := startDate, endDate := endDate
          submissionDates := submissionDates }
    | none =>
      CourseManager.saveScheduleWrite db courseId
        { id := courseId, startDate := startDate, endDate := endDate
          submissionDates := submissionDates }

instance {ε α : Type} [DecidableEq ε] [DecidableEq α] : DecidableEq (Except ε α) :=
  fun x y =>
    match x, y with
    | .error a, .error b =>
      if h : a = b then isTrue (congrArg Except.error h)
      else isFalse (fun he => h (Except.error.inj he))
    | .ok a, .ok b =>
      if h : a = b then isTrue (congrArg Except.ok h)
      else isFalse (fun he => h (Except.ok.inj he))
    | .error _, .ok _ => isFalse (fun he => Except.noConfusion he)
    | .ok _, .error _ => isFalse (fun he => Except.noConfusion he)

/-- C2: for every state `s` and target `t`, `UserStatus.canTransitionTo` and
`UserRole.canTransitionTo` return true exactly according to the declared
tables: unconfirmed allows confirmed, suspended and removed; confirmed allows
suspended; suspended allows confirmed and removed; removed allows nothing;
USER allows ADMIN and ADMIN allows USER. -/
theorem canTransitionTo_matches_tables :
    (∀ s t : UserStatusEnum, (UserStatus.mk s).canTransitionTo t = true ↔
      ((s = .unconfirmed ∧ (t = .confirmed ∨ t = .suspended ∨ t = .removed)) ∨
       (s = .confirmed ∧ t = .suspended) ∨
       (s = .suspended ∧ (t = .confirmed ∨ t = .removed)))) ∧
    (∀ r q : UserRoleEnum, (UserRole.mk r).canTransitionTo q = true ↔
      ((r = .USER ∧ q = .ADMIN) ∨ (r = .ADMIN ∧ q = .USER))) := by
  decide

/-- C3 (failing evaluation): the `UserRole` constructor's guard is inverted
(and references the misspelled `UserRoleEnaum`), so constructing with the
declared member `ADMIN` throws `Invalid initial role` while the undeclared
string `"invalid"` is accepted and stored; the `UserStatus` constructor, by
contrast, behaves as the claim states. -/
theorem userRole_constructor_rejects_declared_members :
    UserRole.construct "ADMIN" = .error (.invalidInitialRole "ADMIN") ∧
    UserRole.construct "invalid" = .ok "invalid" ∧
    UserStatus.construct "confirmed" = .ok ⟨.confirmed⟩ ∧
    UserStatus.construct "bogus" = .error (.invalidInitialStatus "bogus") :=
  ⟨rfl, rfl, rfl, rfl⟩

/-- C4 (counterexample): calling `transitionTo(removed)` on a `UserStatus` in
state `removed` does not fail — the same-state short-circuit returns the
identical instance before the transition table is consulted. -/
theorem removed_transitionTo_removed_returns_this :
    (UserStatus.mk .removed).transitionTo .removed = .ok .sameInstance := by
  decide

/-- C4 (amended): for every target state `t` other than `removed` itself,
`transitionTo(t)` on a `UserStatus` in state `removed` fails with an
`Invalid transition` error. -/
theorem removed_transitionTo_other_always_fails (t : UserStatusEnum)
    (h : t ≠ .removed) :
    (UserStatus.mk .removed).transitionTo t =
      .error (.invalidTransition "removed" t.toTag) := by
  revert h
  revert t
  decide

theorem removed_transitionTo_other_always_fails_witness :
    (UserStatus.mk .removed).transitionTo .confirmed =
      .error (.invalidTransition "removed" "confirmed") :=
  removed_transitionTo_other_always_fails .confirmed (by decide)

/-- C5: for every state `s`, `transitionTo(s)` on a `UserStatus` or `UserRole`
currently in state `s` succeeds and returns the very same instance (the
`return this` branch, not a fresh construction). -/
theorem transitionTo_same_state_returns_same_instance :
    (∀ s : UserStatusEnum, (UserStatus.mk s).transitionTo s = .ok .sameInstance) ∧
    (∀ r : UserRoleEnum, (UserRole.mk r).transitionTo r = .ok .sameInstance) := by
  decide

/-- C6: for every state and distinct allowed target, `transitionTo` on a
`UserStatus` or `UserRole` returns a new instance whose state is the target;
the receiving instance is immutable (its single field is `readonly` and the
method performs no assignment), so the original still holds its state. -/
theorem transitionTo_allowed_returns_new_instance (s t : UserStatusEnum)
    (r q : UserRoleEnum) (hst : s ≠ t)
    (hallowS : (UserStatus.mk s).canTransitionTo t = true) (hrq : r ≠ q)
    (hallowR : (UserRole.mk r).canTransitionTo q = true) :
    (UserStatus.mk s).transitionTo t = .ok (.newInstance ⟨t⟩) ∧
    (UserStatus.mk s).status = s ∧
    (UserRole.mk r).transitionTo q = .ok (.newInstance ⟨q⟩) ∧
    (UserRole.mk r).role = r := by
  revert hst hallowS hrq hallowR
  revert s t r q
  decide

theorem transitionTo_allowed_returns_new_instance_witness :
    (UserStatus.mk .unconfirmed).transitionTo .confirmed =
      .ok (.newInstance ⟨.confirmed⟩) ∧
    (UserStatus.mk .unconfirmed).status = .unconfirmed ∧
    (UserRole.mk .USER).transitionTo .ADMIN = .ok (.newInstance ⟨.ADMIN⟩) ∧
    (UserRole.mk .USER).role = .USER :=
  transitionTo_allowed_returns_new_instance .unconfirmed .confirmed .USER .ADMIN
    (by decide) (by decide) (by decide) (by decide)

/-- C7 (failing evaluation): `User.setRole` stores its raw string argument
directly (the `role` field is a plain string marked `@todo`), so the
undeclared value `"SUPERADMIN"` is stored without any state-machine check;
`User.setStatus`, by contrast, goes through `UserStatus.transitionTo` and
rejects an undeclared tag. -/
theorem setRole_stores_raw_string :
    ((User.construct 1).setRole "SUPERADMIN").role = some "SUPERADMIN" ∧
    (User.construct 1).setStatus "SUPERSTATE" =
      .error (.invalidTransition "unconfirmed" "SUPERSTATE") :=
  ⟨rfl, rfl⟩

/-- C8: for every assignment of primitive values to the users columns (the
status column holding one of the four declared status tags), `readFrom` on a
freshly constructed `User` followed by `writeTo` emits exactly the original
primitive value for every field; null stored values populate to domain nulls
and emit back as nulls. -/
theorem user_readFrom_writeTo_roundtrip (i : Int) (r : UserRow)
    (e : UserStatusEnum) (h : r.status = some e.toTag) :
    Except.map User.writeTo ((User.construct i).readFrom r) = Except.ok r := by
  obtain ⟨rid, rname, rgh, remail, rstatus, rrole, rpw, rrpt, rrpe, rcet, rcee⟩ := r
  obtain rfl : rstatus = some e.toTag := h
  cases e <;> cases remail <;> rfl

theorem user_readFrom_writeTo_roundtrip_witness :
    Except.map User.writeTo ((User.construct 1).readFrom
      ⟨1, some "admin", none, some "sys@admin.org", some "confirmed",
       some "ADMIN", some "pw", none, none, none, some 7⟩) =
    Except.ok
      ⟨1, some "admin", none, some "sys@admin.org", some "confirmed",
       some "ADMIN", some "pw", none, none, none, some 7⟩ :=
  user_readFrom_writeTo_roundtrip 1 _ .confirmed rfl

/-- C9: `deleteTerm` on a term with at least one course fails and leaves the
store (hence the term) unchanged; likewise `deleteCourse` on a course with at
least one project; once no children reference the parent, the same deletion
succeeds and returns true (removing the row); deleting a nonexistent term or
course returns false and changes nothing. -/
theorem deletion_guards (db : DB) (termId courseId : Int) :
    (db.terms.any (fun t => t.id == termId) = true →
     db.courses.any (fun c => c.termId == termId) = true →
       TermManager.deleteTerm db termId =
         (.error (.illegalArgument
           "Cannot delete term with existing courses. Please delete all courses first."),
          db)) ∧
    (db.terms.any (fun t => t.id == termId) = true →
     db.courses.any (fun c => c.termId == termId) = false →
       TermManager.deleteTerm db termId =
         (.ok true, { db with terms := db.terms.filter (fun t => t.id != termId) })) ∧
    (db.terms.any (fun t => t.id == termId) = false →
       TermManager.deleteTerm db termId = (.ok false, db)) ∧
    (db.courses.any (fun c => c.id == courseId) = true →
     db.projects.any (fun p => p.courseId == courseId) = true →
       CourseManager.deleteCourse db courseId =
         (.error (.illegalArgument
           "Cannot delete course with existing projects. Please delete all projects first."),
          db)) ∧
    (db.courses.any (fun c => c.id == courseId) = true →
     db.projects.any (fun p => p.courseId == courseId) = false →
       CourseManager.deleteCourse db courseId =
         (.ok true,
           { db with
             submissions := db.submissions.filter (fun s => s.scheduleId != courseId)
             schedules := db.schedules.filter (fun s => s.id != courseId)
             courses := db.courses.filter (fun c => c.id != courseId) })) ∧
    (db.courses.any (fun c => c.id == courseId) = false →
       CourseManager.deleteCourse db courseId = (.ok false, db)) := by
  refine ⟨fun h1 h2 => ?_, fun h1 h2 => ?_, fun h1 => ?_,
          fun h1 h2 => ?_, fun h1 h2 => ?_, fun h1 => ?_⟩ <;>
    simp [TermManager.deleteTerm, CourseManager.deleteCourse, h1] <;>
    simpa using h2

theorem deletion_guards_witness :
    TermManager.deleteTerm ⟨[⟨1, "t", "T"⟩], [⟨1, "c", 1⟩], [⟨1, "p", 1⟩], [], []⟩ 1 =
      (.error (.illegalArgument
        "Cannot delete term with existing courses. Please delete all courses first."),
       ⟨[⟨1, "t", "T"⟩], [⟨1, "c", 1⟩], [⟨1, "p", 1⟩], [], []⟩) ∧
    CourseManager.deleteCourse
        ⟨[⟨1, "t", "T"⟩], [⟨1, "c", 1⟩], [⟨1, "p", 1⟩], [], []⟩ 1 =
      (.error (.illegalArgument
        "Cannot delete course with existing projects. Please delete all projects first."),
       ⟨[⟨1, "t", "T"⟩], [⟨1, "c", 1⟩], [⟨1, "p", 1⟩], [], []⟩) ∧
    TermManager.deleteTerm ⟨[⟨1, "t", "T"⟩], [⟨2, "c", 9⟩], [], [⟨2, 0, 5⟩], [⟨2, 3⟩]⟩ 1 =
      (.ok true, ⟨[], [⟨2, "c", 9⟩], [], [⟨2, 0, 5⟩], [⟨2, 3⟩]⟩) ∧
    CourseManager.deleteCourse
        ⟨[⟨1, "t", "T"⟩], [⟨2, "c", 9⟩], [], [⟨2, 0, 5⟩], [⟨2, 3⟩]⟩ 2 =
      (.ok true, ⟨[⟨1, "t", "T"⟩], [], [], [], []⟩) ∧
    TermManager.deleteTerm ⟨[⟨1, "t", "T"⟩], [⟨1, "c", 1⟩], [⟨1, "p", 1⟩], [], []⟩ 99 =
      (.ok false, ⟨[⟨1, "t", "T"⟩], [⟨1, "c", 1⟩], [⟨1, "p", 1⟩], [], []⟩) ∧
    CourseManager.deleteCourse
        ⟨[⟨1, "t", "T"⟩], [⟨1, "c", 1⟩], [⟨1, "p", 1⟩], [], []⟩ 99 =
      (.ok false, ⟨[⟨1, "t", "T"⟩], [⟨1, "c", 1⟩], [⟨1, "p", 1⟩], [], []⟩) :=
  ⟨(deletion_guards _ 1 1).1 (by decide) (by decide),
   (deletion_guards _ 1 1).2.2.2.1 (by decide) (by decide),
   (deletion_guards _ 1 2).2.1 (by decide) (by decide),
   (deletion_guards _ 1 2).2.2.2.2.1 (by decide) (by decide),
   (deletion_guards _ 99 99).2.2.1 (by decide),
   (deletion_guards _ 99 99).2.2.2.2.2 (by decide)⟩

/-- A successful `saveScheduleWrite` returns exactly the schedule it was
handed. -/
theorem saveScheduleWrite_ok_sch (db : DB) (courseId : Int)
    (sch sch2 : CourseSchedule) (db2 : DB)
    (h : CourseManager.saveScheduleWrite db courseId sch = .ok (sch2, db2)) :
    sch2 = sch := by
  unfold CourseManager.saveScheduleWrite at h
  split at h
  · simp only [Except.ok.injEq, Prod.mk.injEq] at h
    exact h.1.symm
  · exact Except.noConfusion h

/-- C10: the schedule written by `saveSchedule` carries the course's id
(`setId(courseId)` on creation, and an existing schedule is fetched by
`id = courseId`); and `deleteCourse` on a project-free course removes exactly
the courses row with that id, the schedules row with `id = courseId` and the
submissions rows with `scheduleId = courseId`, leaving terms, projects and all
other rows unchanged. -/
theorem schedule_id_and_deleteCourse_frame (db : DB) (courseId s e : Int)
    (dates : List Int) (sch : CourseSchedule) (db2 : DB) :
    (CourseManager.saveSchedule db courseId s e dates = .ok (sch, db2) →
      sch.id = courseId) ∧
    (db.courses.any (fun c => c.id == courseId) = true →
     db.projects.any (fun p => p.courseId == courseId) = false →
      CourseManager.deleteCourse db courseId =
        (.ok true,
          { terms := db.terms
            courses := db.courses.filter (fun c => c.id != courseId)
            projects := db.projects
            schedules := db.schedules.filter (fun r => r.id != courseId)
            submissions := db.submissions.filter (fun r => r.scheduleId != courseId) })) := by
  constructor
  · intro hsave
    unfold CourseManager.saveSchedule at hsave
    split at hsave
    · exact Except.noConfusion hsave
    · split at hsave
      next row hfind =>
        simp only [findSchedule] at hfind
        have hrow := List.find?_some hfind
        have hsch := saveScheduleWrite_ok_sch _ _ _ _ _ hsave
        rw [hsch]
        exact beq_iff_eq.mp hrow
      next hfind =>
        have hsch := saveScheduleWrite_ok_sch _ _ _ _ _ hsave
        rw [hsch]
  · intro h1 h2
    simp [CourseManager.deleteCourse, h1]
    simpa using h2

theorem schedule_id_and_deleteCourse_frame_witness :
    (CourseSchedule.mk 1 0 10 [5]).id = 1 ∧
    CourseManager.deleteCourse
        ⟨[⟨1, "t", "T"⟩], [⟨2, "c", 1⟩], [], [⟨2, 0, 5⟩, ⟨9, 0, 5⟩], [⟨2, 3⟩, ⟨9, 4⟩]⟩ 2 =
      (.ok true, ⟨[⟨1, "t", "T"⟩], [], [], [⟨9, 0, 5⟩], [⟨9, 4⟩]⟩) :=
  ⟨(schedule_id_and_deleteCourse_frame ⟨[], [⟨1, "c", 1⟩], [], [], []⟩ 1 0 10 [5]
      ⟨1, 0, 10, [5]⟩ ⟨[], [⟨1, "c", 1⟩], [], [⟨1, 0, 10⟩], [⟨1, 5⟩]⟩).1 (by decide),
   (schedule_id_and_deleteCourse_frame
      ⟨[⟨1, "t", "T"⟩], [⟨2, "c", 1⟩], [], [⟨2, 0, 5⟩, ⟨9, 0, 5⟩], [⟨2, 3⟩, ⟨9, 4⟩]⟩
      2 0 0 [] ⟨0, 0, 0, []⟩ ⟨[], [], [], [], []⟩).2 (by decide) (by decide)⟩

/-- When the schedule row is present, `insertSubmission` reduces to its
constraint checks. -/
theorem insertSubmission_eq_of_find (db : DB) (sid d : Int) (row : ScheduleRow)
    (hfind : findSchedule db.schedules sid = some row) :
    insertSubmission db sid d =
      (if d < row.startDate ∨ row.endDate < d then
        .error (.constraintViolation
          "submissionDate must be between startDate and endDate")
      else if hasSubmission db sid d then
        .error (.constraintViolation
          "UNIQUE constraint failed: submissions.scheduleId, submissions.submissionDate")
      else .ok { db with submissions := db.submissions ++ [⟨sid, d⟩] }) := by
  unfold insertSubmission
  rw [hfind]

/-- Every failure of `insertSubmission` is a `ConstraintViolation`. -/
theorem insertSubmission_error_cv (db : DB) (sid d : Int) (e : VError)
    (h : insertSubmission db sid d = .error e) :
    ∃ msg, e = .constraintViolation msg := by
  unfold insertSubmission at h
  split at h
  · split at h
    · exact ⟨_, (Except.error.inj h).symm⟩
    · exact Except.noConfusion h
  · split at h
    · exact ⟨_, (Except.error.inj h).symm⟩
    · split at h
      · exact ⟨_, (Except.error.inj h).symm⟩
      · exact Except.noConfusion h

/-- A successful `insertSubmission` only appends the new submission row. -/
theorem insertSubmission_ok_shape (db db2 : DB) (sid d : Int)
    (h : insertSubmission db sid d = .ok db2) :
    db2 = { db with submissions := db.submissions ++ [⟨sid, d⟩] } := by
  unfold insertSubmission at h
  split at h
  · split at h
    · exact Except.noConfusion h
    · exact (Except.ok.inj h).symm
  · split at h
    · exact Except.noConfusion h
    · split at h
      · exact Except.noConfusion h
      · exact (Except.ok.inj h).symm

/-- `insertSubmissions` either succeeds or fails with a `ConstraintViolation`. -/
theorem insertSubmissions_ok_or_cv (sid : Int) (dates : List Int) :
    ∀ db : DB, (∃ db2, insertSubmissions sid db dates = .ok db2) ∨
      (∃ msg, insertSubmissions sid db dates = .error (.constraintViolation msg)) := by
  induction dates with
  | nil => exact fun db => .inl ⟨db, rfl⟩
  | cons d rest ih =>
    intro db
    unfold insertSubmissions
    cases hins : insertSubmission db sid d with
    | ok db1 => exact ih db1
    | error e =>
      obtain ⟨msg, rfl⟩ := insertSubmission_error_cv db sid d e hins
      exact .inr ⟨msg, rfl⟩

/-- Updating in place finds the updated row. -/
theorem findSchedule_map_replace (row : ScheduleRow) (rows : List ScheduleRow)
    (h : rows.any (fun r => r.id == row.id) = true) :
    findSchedule (rows.map (fun r => if r.id == row.id then row else r)) row.id =
      some row := by
  induction rows with
  | nil => simp at h
  | cons r rs ih =>
    by_cases hr : (r.id == row.id) = true
    · rw [List.map_cons, if_pos hr]
      simp [findSchedule]
    · rw [List.map_cons, if_neg hr]
      simp only [List.any_cons, Bool.or_eq_true] at h
      rcases h with h | h
      · exact absurd h hr
      · have hf : (r.id == row.id) = false := Bool.eq_false_iff.mpr hr
        simp only [findSchedule] at ih ⊢
        rw [List.find?_cons]
        simp only [hf, cond_false]
        exact ih h

/-- Appending a fresh row finds it when no existing row has its id. -/
theorem findSchedule_append (row : ScheduleRow) (rows : List ScheduleRow)
    (h : rows.any (fun r => r.id == row.id) = false) :
    findSchedule (rows ++ [row]) row.id = some row := by
  induction rows with
  | nil => simp [findSchedule]
  | cons r rs ih =>
    simp only [List.any_cons, Bool.or_eq_false_iff] at h
    simp only [findSchedule, List.cons_append] at ih ⊢
    rw [List.find?_cons]
    simp only [h.1, cond_false]
    exact ih h.2

/-- After `upsertSchedule`, lookup by the row's id returns exactly that row. -/
theorem findSchedule_upsert (row : ScheduleRow) (rows : List ScheduleRow) :
    findSchedule (upsertSchedule rows row) row.id = some row := by
  unfold upsertSchedule
  by_cases h : rows.any (fun r => r.id == row.id) = true
  · rw [if_pos h]
    exact findSchedule_map_replace row rows h
  · rw [if_neg h]
    exact findSchedule_append row rows (Bool.eq_false_iff.mpr h)

/-- After the full-replace deletion of a schedule's children, no submission
row for that schedule remains. -/
theorem hasSubmission_filter (subs : List SubmissionRow) (rest : DB) (sid d : Int) :
    hasSubmission { rest with submissions := subs.filter (fun s => s.scheduleId != sid) }
      sid d = false := by
  rw [Bool.eq_false_iff]
  intro hany
  simp only [hasSubmission] at hany
  obtain ⟨x, hx, hp⟩ := List.any_eq_true.mp hany
  have hkeep := (List.mem_filter.mp hx).2
  simp only [bne_iff_ne] at hkeep
  simp at hp
  exact hkeep hp.1

/-- A date outside the schedule's window makes the child-insert sequence
fail, whatever else the list contains. -/
theorem insertSubmissions_bad_not_ok (sid sD eD : Int) (dates : List Int) :
    ∀ db : DB, findSchedule db.schedules sid = some ⟨sid, sD, eD⟩ →
    (∃ d ∈ dates, d < sD ∨ eD < d) →
    ∀ db2, insertSubmissions sid db dates ≠ .ok db2 := by
  induction dates with
  | nil =>
    intro db _ hbad db2
    simp at hbad
  | cons d rest ih =>
    intro db hfind hbad db2 hok
    unfold insertSubmissions at hok
    cases hins : insertSubmission db sid d with
    | error e => rw [hins] at hok; exact Except.noConfusion hok
    | ok db1 =>
      rw [hins] at hok
      obtain ⟨b, hb, hbw⟩ := hbad
      rcases List.mem_cons.mp hb with rfl | hbrest
      · rw [insertSubmission_eq_of_find db sid b _ hfind, if_pos hbw] at hins
        exact Except.noConfusion hins
      · have hshape := insertSubmission_ok_shape db db1 sid d hins
        have hfind1 : findSchedule db1.schedules sid = some ⟨sid, sD, eD⟩ := by
          rw [hshape]; exact hfind
        exact ih db1 hfind1 ⟨b, hbrest, hbw⟩ db2 hok

/-- With the schedule row present, all dates inside the window, the dates
pairwise distinct, and no pre-existing submission for any of them, the
child-insert sequence succeeds. -/
theorem insertSubmissions_ok_of_good (sid sD eD : Int) (dates : List Int) :
    ∀ db : DB, findSchedule db.schedules sid = some ⟨sid, sD, eD⟩ →
    (∀ d ∈ dates, sD ≤ d ∧ d ≤ eD) →
    dates.Nodup →
    (∀ d ∈ dates, hasSubmission db sid d = false) →
    ∃ db2, insertSubmissions sid db dates = .ok db2 := by
  induction dates with
  | nil => exact fun db _ _ _ _ => ⟨db, rfl⟩
  | cons d rest ih =>
    intro db hfind hwin hnd hhs
    unfold insertSubmissions
    rw [insertSubmission_eq_of_find db sid d _ hfind]
    have hw : ¬(d < sD ∨ eD < d) := by
      have := hwin d (List.mem_cons_self d rest)
      omega
    rw [if_neg hw, hhs d (List.mem_cons_self d rest)]
    simp only [Bool.false_eq_true, if_false]
    have hdmem : d ∉ rest := (List.nodup_cons.mp hnd).1
    refine ih _ hfind (fun b hb => hwin b (List.mem_cons_of_mem d hb))
      (List.nodup_cons.mp hnd).2 (fun b hb => ?_)
    have hbd : (b == d) = false :=
      beq_eq_false_iff_ne.mpr (fun hEq => hdmem (hEq ▸ hb))
    have hold := hhs b (List.mem_cons_of_mem d hb)
    simp only [hasSubmission, List.any_append, List.any_cons, List.any_nil,
      Bool.or_false, Bool.or_eq_false_iff] at hold ⊢
    refine ⟨hold, ?_⟩
    simp
    exact fun hEq => hdmem (hEq.symm ▸ hb)

/-- A duplicate date — either one already stored for the schedule or a repeat
inside the list itself — makes the child-insert sequence fail. -/
theorem insertSubmissions_dup_not_ok (sid sD eD : Int) (dates : List Int) :
    ∀ db : DB, findSchedule db.schedules sid = some ⟨sid, sD, eD⟩ →
    ((∃ d ∈ dates, hasSubmission db sid d = true) ∨ ¬ dates.Nodup) →
    ∀ db2, insertSubmissions sid db dates ≠ .ok db2 := by
  induction dates with
  | nil =>
    intro db _ hyp db2
    rcases hyp with ⟨d, hd, _⟩ | hnd
    · simp at hd
    · exact absurd List.nodup_nil hnd
  | cons d rest ih =>
    intro db hfind hyp db2 hok
    unfold insertSubmissions at hok
    cases hins : insertSubmission db sid d with
    | error e => rw [hins] at hok; exact Except.noConfusion hok
    | ok db1 =>
      rw [hins] at hok
      have hshape := insertSubmission_ok_shape db db1 sid d hins
      rw [insertSubmission_eq_of_find db sid d _ hfind] at hins
      by_cases hw : d < sD ∨ eD < d
      · rw [if_pos hw] at hins
        exact Except.noConfusion hins
      · rw [if_neg hw] at hins
        by_cases hdup : hasSubmission db sid d = true
        · rw [hdup] at hins
          simp only [if_true] at hins
          exact Except.noConfusion hins
        · have hfind1 : findSchedule db1.schedules sid = some ⟨sid, sD, eD⟩ := by
            rw [hshape]; exact hfind
          have hnew : ∀ b, b ∈ rest → b = d → hasSubmission db1 sid b = true := by
            intro b _ hEq
            subst hEq
            rw [hshape]
            simp [hasSubmission, List.any_append]
          have hmono : ∀ b, hasSubmission db sid b = true →
              hasSubmission db1 sid b = true := by
            intro b hb
            rw [hshape]
            simp only [hasSubmission, List.any_append, Bool.or_eq_true]
            exact .inl hb
          refine ih db1 hfind1 ?_ db2 hok
          rcases hyp with ⟨b, hb, hbs⟩ | hnd
          · rcases List.mem_cons.mp hb with rfl | hbrest
            · exact absurd hbs hdup
            · exact .inl ⟨b, hbrest, hmono b hbs⟩
          · by_cases hdin : d ∈ rest
            · exact .inl ⟨d, hdin, hnew d hdin rfl⟩
            · refine .inr (fun hndrest => hnd (List.nodup_cons.mpr ⟨hdin, hndrest⟩))

/-- C1: for every `CourseSchedule` written via `writeRoot`: a submission date
strictly before `startDate` or strictly after `endDate` makes the write fail
with a `ConstraintViolation`; if all submission dates lie within
`[startDate, endDate]` and are pairwise distinct the write succeeds; two equal
submission dates for the same schedule make the write fail with a
`ConstraintViolation`. -/
theorem writeRoot_schedule_constraints (db : DB) (sch : CourseSchedule) :
    ((∃ d ∈ sch.submissionDates, d < sch.startDate ∨ sch.endDate < d) →
      ∃ msg, writeRoot db sch = .error (.constraintViolation msg)) ∧
    ((∀ d ∈ sch.submissionDates, sch.startDate ≤ d ∧ d ≤ sch.endDate) →
      sch.submissionDates.Nodup →
      ∃ db2, writeRoot db sch = .ok db2) ∧
    (¬ sch.submissionDates.Nodup →
      ∃ msg, writeRoot db sch = .error (.constraintViolation msg)) := by
  have hfind : findSchedule
      (upsertSchedule db.schedules ⟨sch.id, sch.startDate, sch.endDate⟩) sch.id =
      some ⟨sch.id, sch.startDate, sch.endDate⟩ :=
    findSchedule_upsert ⟨sch.id, sch.startDate, sch.endDate⟩ db.schedules
  refine ⟨?_, ?_, ?_⟩
  · intro hbad
    rcases insertSubmissions_ok_or_cv sch.id sch.submissionDates
        { db with
          schedules := upsertSchedule db.schedules ⟨sch.id, sch.startDate, sch.endDate⟩
          submissions := db.submissions.filter (fun s => s.scheduleId != sch.id) }
      with ⟨db2, hok⟩ | ⟨msg, herr⟩
    · exact absurd hok (insertSubmissions_bad_not_ok sch.id sch.startDate sch.endDate
        sch.submissionDates _ hfind hbad db2)
    · exact ⟨msg, herr⟩
  · intro hwin hnd
    exact insertSubmissions_ok_of_good sch.id sch.startDate sch.endDate
      sch.submissionDates
      { db with
        schedules := upsertSchedule db.schedules ⟨sch.id, sch.startDate, sch.endDate⟩
        submissions := db.submissions.filter (fun s => s.scheduleId != sch.id) }
      hfind hwin hnd
      (fun d _ => hasSubmission_filter db.submissions
        { db with
          schedules := upsertSchedule db.schedules ⟨sch.id, sch.startDate, sch.endDate⟩ }
        sch.id d)
  · intro hnd
    rcases insertSubmissions_ok_or_cv sch.id sch.submissionDates
        { db with
          schedules := upsertSchedule db.schedules ⟨sch.id, sch.startDate, sch.endDate⟩
          submissions := db.submissions.filter (fun s => s.scheduleId != sch.id) }
      with ⟨db2, hok⟩ | ⟨msg, herr⟩
    · exact absurd hok (insertSubmissions_dup_not_ok sch.id sch.startDate sch.endDate
        sch.submissionDates _ hfind (.inr hnd) db2)
    · exact ⟨msg, herr⟩

theorem writeRoot_schedule_constraints_witness :
    (∃ msg, writeRoot ⟨[], [], [], [], []⟩ ⟨1, 0, 10, [20]⟩ =
      .error (.constraintViolation msg)) ∧
    (∃ db2, writeRoot ⟨[], [], [], [], []⟩ ⟨1, 0, 10, [1, 5]⟩ = .ok db2) ∧
    (∃ msg, writeRoot ⟨[], [], [], [], []⟩ ⟨1, 0, 10, [5, 5]⟩ =
      .error (.constraintViolation msg)) :=
  ⟨(writeRoot_schedule_constraints ⟨[], [], [], [], []⟩ ⟨1, 0, 10, [20]⟩).1
     (by decide),
   (writeRoot_schedule_constraints ⟨[], [], [], [], []⟩ ⟨1, 0, 10, [1, 5]⟩).2.1
     (by decide) (by decide),
   (writeRoot_schedule_constraints ⟨[], [], [], [], []⟩ ⟨1, 0, 10, [5, 5]⟩).2.2
     (by decide)⟩

end HGL
